import Mathlib

/-!
Shallow embedding of the atmel-usbdfu bootloader protocol layer
(`rram-usbdfu.c` / `rram-usbdfu.h`).

The DFU class state and status registers, the FLIP command record and the
page-bank register are modelled as a machine record `Mach`.  Hardware side
effects (flash page erase / fill / commit, EEPROM byte writes, dataflash
commands, endpoint acknowledgements and endpoint byte writes) are recorded
as an event trace.  The streaming loops of `ProcessDownload` /
`ProcessUpload` are modelled as fuelled recursive functions that walk the
cursor exactly as the C loops do, 16-bit (flash / EEPROM) or 32-bit
(dataflash) address arithmetic included.  `SPM_PAGESIZE`,
`FIXED_CONTROL_ENDPOINT_SIZE`, `DATAFLASH_PAGE_SIZE` and `BOOT_START_ADDR`
are external build constants of the firmware, so they are parameters of the
model (`Cfg`).
-/

/-- DFU_State_t value `dfuIDLE`. -/
def dfuIDLE : Nat := 2
/-- DFU_State_t value `dfuDNLOAD_SYNC`. -/
def dfuDNLOAD_SYNC : Nat := 3
/-- DFU_State_t value `dfuDNBUSY`. -/
def dfuDNBUSY : Nat := 4
/-- DFU_State_t value `dfuDNLOAD_IDLE`. -/
def dfuDNLOAD_IDLE : Nat := 5
/-- DFU_State_t value `dfuMANIFEST_SYNC`. -/
def dfuMANIFEST_SYNC : Nat := 6
/-- DFU_State_t value `dfuUPLOAD_IDLE`. -/
def dfuUPLOAD_IDLE : Nat := 9
/-- DFU_State_t value `dfuERROR`. -/
def dfuERROR : Nat := 10

/-- DFU_Status_t value `OK`. -/
def statusOK : Nat := 0
/-- DFU_Status_t value `errCHECK_ERASED`. -/
def errCHECK_ERASED : Nat := 5

/-- Side effects performed by the bootloader, recorded as a trace. -/
inductive Ev where
  | clearSetup
  | clearStatusStage
  | clearOut
  | clearIn
  | outByte (b : Nat)
  | outWord (w : Nat)
  | erase (a : Nat)
  | commit (a : Nat)
  | rww
  | fill (a : Nat)
  | flashRead (a : Nat)
  | eepWrite (a : Nat)
  | eepRead (a : Nat)
  | dfSelect
  | dfDeselect
  | dfToggle
  | dfConfW (page off : Nat)
  | dfConfR (page off : Nat)
  | dfCommit (page : Nat)
  | dfWrite (a : Nat)
  | dfRead (a : Nat)
  | dfByte (b : Nat)
  | wdtEnable
  | startApp
deriving DecidableEq

/-- `USB_FLIP_Command_t`: one group byte and five data bytes. -/
structure Flip where
  group : Nat
  d0 : Nat
  d1 : Nat
  d2 : Nat
  d3 : Nat
  d4 : Nat
deriving DecidableEq

/-- The bootloader's global protocol state: `DFU_State`, `DFU_Status`,
`nonBlankAddr`, `curFlash64KBPageNumber`, `flipCommand`,
`waitForSecondRequest`, `AppStartPtr`, plus the recorded side-effect
trace. -/
structure Mach where
  dfuState : Nat
  dfuStatus : Nat
  nonBlankAddr : Nat
  bank : Nat
  cmd : Flip
  waitForSecondRequest : Bool
  appStartPtr : Nat
  events : List Ev
deriving DecidableEq

/-- External build constants and memory contents: `SPM_PAGESIZE` (P),
`FIXED_CONTROL_ENDPOINT_SIZE` (EP), `DATAFLASH_PAGE_SIZE` (DP),
`BOOT_START_ADDR` (boot), loop fuel, and the three memories read by the
upload / blank-check paths. -/
structure Cfg where
  P : Nat
  EP : Nat
  DP : Nat
  boot : Nat
  fuel : Nat
  flashMem : Nat → Nat
  eepMem : Nat → Nat
  dfMem : Nat → Nat

/-- Big-endian 16-bit field from two payload bytes:
`((uint16_t)hi << 8) | lo`. -/
def addr16 (hi lo : Nat) : Nat := 256 * (hi % 256) + lo % 256

/-- The flash-programming streaming loop of `ProcessDownload`
(case `data[0] == 0x00`), one call per `for` iteration.  `i` is the byte
index inside the current OUT packet; the cursor is a `uint16_t`.
Returns the event trace, the final cursor, and whether the loop reached
`dfuMANIFEST_SYNC` (fuel permitting). -/
def flashGo (P EP s e : Nat) (fuel cur i : Nat) : List Ev × Nat × Bool :=
  match fuel with
  | 0 => ([], cur, false)
  | fuel + 1 =>
    if i < EP then
      if cur % P = 0 then
        let pre : List Ev :=
          Ev.erase cur ::
            ((if cur = s then [] else [Ev.commit ((cur + 65534) % 65536)]) ++ [Ev.rww])
        if e < cur then
          (pre ++ [Ev.clearOut], cur, true)
        else
          let r := flashGo P EP s e fuel ((cur + 2) % 65536) (i + 2)
          (pre ++ Ev.fill cur :: r.1, r.2)
      else
        let r := flashGo P EP s e fuel ((cur + 2) % 65536) (i + 2)
        (Ev.fill cur :: r.1, r.2)
    else
      let r := flashGo P EP s e fuel cur 0
      (Ev.clearOut :: r.1, r.2)

/-- The EEPROM-programming streaming loop of `ProcessDownload`
(case `data[0] == 0x01`). -/
def eepGo (EP e : Nat) (fuel cur i : Nat) : List Ev × Nat × Bool :=
  match fuel with
  | 0 => ([], cur, false)
  | fuel + 1 =>
    if i < EP then
      if e < cur then
        ([Ev.clearOut], cur, true)
      else
        let r := eepGo EP e fuel ((cur + 1) % 65536) (i + 1)
        (Ev.eepWrite cur :: r.1, r.2)
    else
      let r := eepGo EP e fuel cur 0
      (Ev.clearOut :: r.1, r.2)

/-- The dataflash-programming streaming loop of `ProcessDownload`
(case `data[0] == 0x10`); the cursor is a `uint32_t`. -/
def dfGo (DP EP s e : Nat) (fuel cur i : Nat) : List Ev × Nat × Bool :=
  match fuel with
  | 0 => ([], cur, false)
  | fuel + 1 =>
    if i < EP then
      if cur ≠ s ∧ cur % DP = 0 then
        if e < cur then
          ([Ev.dfToggle, Ev.dfCommit (cur / DP - 1), Ev.dfToggle,
            Ev.dfDeselect, Ev.clearOut], cur, true)
        else
          let r := dfGo DP EP s e fuel ((cur + 1) % 4294967296) (i + 1)
          (Ev.dfToggle :: Ev.dfCommit (cur / DP - 1) :: Ev.dfToggle ::
            Ev.dfConfW (cur / DP) 0 :: Ev.dfWrite cur :: r.1, r.2)
      else
        let r := dfGo DP EP s e fuel ((cur + 1) % 4294967296) (i + 1)
        (Ev.dfWrite cur :: r.1, r.2)
    else
      let r := dfGo DP EP s e fuel cur 0
      (Ev.clearOut :: r.1, r.2)

/-- The flash display-data loop of `ProcessUpload` (case `data[0] == 0x00`):
while `curAddr < endAddr`, send one full IN packet of words read from
program memory. -/
def flUpGo (EP e : Nat) (fuel cur : Nat) : List Ev × Nat :=
  match fuel with
  | 0 => ([], cur)
  | fuel + 1 =>
    if cur < e then
      let reads := (List.range ((EP + 1) / 2)).map
        (fun k => Ev.flashRead ((cur + 2 * k) % 65536))
      let r := flUpGo EP e fuel ((cur + 2 * ((EP + 1) / 2)) % 65536)
      (reads ++ Ev.clearIn :: r.1, r.2)
    else ([], cur)

/-- The EEPROM display-data loop of `ProcessUpload` (case `data[0] == 0x02`). -/
def eepUpGo (EP e : Nat) (fuel cur : Nat) : List Ev × Nat :=
  match fuel with
  | 0 => ([], cur)
  | fuel + 1 =>
    if cur < e then
      let reads := (List.range EP).map (fun k => Ev.eepRead ((cur + k) % 65536))
      let r := eepUpGo EP e fuel ((cur + EP) % 65536)
      (reads ++ Ev.clearIn :: r.1, r.2)
    else ([], cur)

/-- The dataflash display-data loop of `ProcessUpload`
(case `data[0] == 0x10`); 32-bit cursor. -/
def dfUpGo (EP e : Nat) (fuel cur : Nat) : List Ev × Nat :=
  match fuel with
  | 0 => ([], cur)
  | fuel + 1 =>
    if cur < e then
      let reads := (List.range EP).map (fun k => Ev.dfRead ((cur + k) % 4294967296))
      let r := dfUpGo EP e fuel ((cur + EP) % 4294967296)
      (reads ++ Ev.clearIn :: r.1, r.2)
    else ([], cur)

/-- The blank-check scan loop: for `curAddr` from `cur` while
`curAddr < e`, stop at the first cell not reading `0xFF`.  Returns the
first offending address (if any) and the list of addresses read. -/
def blankScan (mem : Nat → Nat) (e : Nat) (fuel cur : Nat) : Option Nat × List Nat :=
  match fuel with
  | 0 => (none, [])
  | fuel + 1 =>
    if cur < e then
      if mem cur ≠ 255 then (some cur, [cur])
      else
        let r := blankScan mem e fuel (cur + 1)
        (r.1, cur :: r.2)
    else (none, [])

/-- The flash erase-all loop of `ProcessExec`
(`for(curAddr=0; curAddr<BOOT_START_ADDR; curAddr+=SPM_PAGESIZE)`). -/
def eraseLoop (P boot : Nat) (fuel cur : Nat) : List Ev :=
  match fuel with
  | 0 => []
  | fuel + 1 =>
    if cur < boot then Ev.erase cur :: eraseLoop P boot fuel (cur + P)
    else []

/-- `ProcessDownload`: the Memory Program command handler. -/
def ProcessDownload (cfg : Cfg) (c : Flip) (m : Mach) : Mach :=
  if c.d0 = 0 then
    if m.dfuState ≠ dfuIDLE then
      { m with dfuState := dfuERROR }
    else
      let s := addr16 c.d1 c.d2
      let e := addr16 c.d3 c.d4
      let r := flashGo cfg.P cfg.EP s e cfg.fuel s 0
      { m with dfuState := if r.2.2 then dfuMANIFEST_SYNC else dfuDNBUSY,
               events := m.events ++ r.1 }
  else if c.d0 = 1 then
    if m.dfuState ≠ dfuIDLE then
      { m with dfuState := dfuERROR }
    else
      let e := addr16 c.d3 c.d4
      let r := eepGo cfg.EP e cfg.fuel (addr16 c.d1 c.d2) 0
      { m with dfuState := if r.2.2 then dfuMANIFEST_SYNC else dfuDNBUSY,
               events := m.events ++ r.1 }
  else if c.d0 = 16 then
    if m.dfuState ≠ dfuIDLE then
      { m with dfuState := dfuERROR }
    else
      let s := 65536 * (m.bank % 256) + addr16 c.d1 c.d2
      let e := 65536 * (m.bank % 256) + addr16 c.d3 c.d4
      let r := dfGo cfg.DP cfg.EP s e cfg.fuel s 0
      { m with dfuState := if r.2.2 then dfuMANIFEST_SYNC else dfuDNBUSY,
               events := m.events ++
                 Ev.dfSelect :: Ev.dfConfW (s / cfg.DP) (s % cfg.DP) :: r.1 }
  else m

/-- `ProcessUpload`: the Memory Read / blank-check command handler.
Note that the EEPROM blank-check branch (`data[0] == 0x03`) is commented
out in the source, so opcode 3 falls through every branch. -/
def ProcessUpload (cfg : Cfg) (c : Flip) (m : Mach) : Mach :=
  if c.d0 = 0 then
    if m.dfuState ≠ dfuIDLE then
      { m with dfuState := dfuERROR }
    else
      let e := addr16 c.d3 c.d4
      let r := flUpGo cfg.EP e cfg.fuel (addr16 c.d1 c.d2)
      { m with dfuState := dfuUPLOAD_IDLE, events := m.events ++ r.1 }
  else if c.d0 = 1 then
    let s := addr16 c.d1 c.d2
    let e := addr16 c.d3 c.d4
    let r := blankScan cfg.flashMem e (e - s) s
    match r.1 with
    | none => { m with events := m.events ++ r.2.map Ev.flashRead }
    | some a =>
      { m with dfuState := dfuERROR, dfuStatus := errCHECK_ERASED,
               nonBlankAddr := a % 65536,
               events := m.events ++ r.2.map Ev.flashRead }
  else if c.d0 = 2 then
    if m.dfuState ≠ dfuIDLE then
      { m with dfuState := dfuERROR }
    else
      let e := addr16 c.d3 c.d4
      let r := eepUpGo cfg.EP e cfg.fuel (addr16 c.d1 c.d2)
      { m with dfuState := dfuUPLOAD_IDLE, events := m.events ++ r.1 }
  else if c.d0 = 16 then
    if m.dfuState ≠ dfuIDLE then
      { m with dfuState := dfuERROR }
    else
      let s := 65536 * (m.bank % 256) + addr16 c.d1 c.d2
      let e := 65536 * (m.bank % 256) + addr16 c.d3 c.d4
      let r := dfUpGo cfg.EP e cfg.fuel s
      { m with dfuState := dfuUPLOAD_IDLE,
               events := m.events ++
                 Ev.dfSelect :: Ev.dfConfR (s / cfg.DP) (s % cfg.DP) ::
                   (r.1 ++ [Ev.dfDeselect]) }
  else if c.d0 = 17 then
    let s := 65536 * (m.bank % 256) + addr16 c.d1 c.d2
    let e := 65536 * (m.bank % 256) + addr16 c.d3 c.d4
    let r := blankScan cfg.dfMem e (e - s) s
    let evs := Ev.dfSelect :: Ev.dfConfR (s / cfg.DP) (s % cfg.DP) ::
      (r.2.map Ev.dfRead ++ [Ev.dfDeselect])
    match r.1 with
    | none => { m with events := m.events ++ evs }
    | some a =>
      { m with dfuState := dfuERROR, dfuStatus := errCHECK_ERASED,
               nonBlankAddr := a % 65536,
               events := m.events ++ evs }
  else m

/-- `ProcessExec`: erase-all commands and application start. -/
def ProcessExec (cfg : Cfg) (c : Flip) (m : Mach) : Mach :=
  let m1 :=
    if c.d0 = 0 ∧ c.d1 = 255 then
      { m with events := m.events ++ (eraseLoop cfg.P cfg.boot cfg.fuel 0 ++ [Ev.rww]) }
    else m
  if c.d0 = 1 ∧ c.d1 = 255 then
    { m1 with events := m1.events ++ (List.range 512).map Ev.eepWrite }
  else if c.d0 = 16 ∧ c.d1 = 255 then
    { m1 with events := m1.events ++
        [Ev.dfSelect, Ev.dfByte 199, Ev.dfByte 148, Ev.dfByte 128,
         Ev.dfByte 154, Ev.dfToggle, Ev.dfDeselect] }
  else if c.d0 = 1 then m1
  else if c.d0 = 3 then
    if c.d1 = 0 then { m1 with events := m1.events ++ [Ev.wdtEnable] }
    else if c.d1 = 1 then { m1 with appStartPtr := addr16 c.d3 c.d4 }
    else m1
  else m1

/-- `ProcessRead`: returns one byte of bootloader / device identity. -/
def ProcessRead (c : Flip) (m : Mach) : Mach :=
  let b : List Ev :=
    if c.d0 = 0 then
      if c.d1 = 0 then [Ev.outByte 32]
      else if c.d1 = 1 then [Ev.outByte 220]
      else if c.d1 = 2 then [Ev.outByte 251]
      else []
    else if c.d0 = 1 then
      if c.d1 = 48 then [Ev.outByte 30]
      else if c.d1 = 49 then [Ev.outByte 148]
      else if c.d1 = 96 then [Ev.outByte 19]
      else if c.d1 = 97 then [Ev.outByte 20]
      else []
    else []
  { m with events := m.events ++ (b ++ [Ev.clearIn]) }

/-- `ProcessSelect`: sets the 64KB page bank register. -/
def ProcessSelect (c : Flip) (m : Mach) : Mach :=
  if c.d0 = 3 then
    if c.d1 = 0 then { m with bank := c.d2 % 256 } else m
  else m

/-- `ProcessFlipCommand`: dispatch by command group. -/
def ProcessFlipCommand (cfg : Cfg) (m : Mach) : Mach :=
  if m.cmd.group = 1 then ProcessDownload cfg m.cmd m
  else if m.cmd.group = 3 then ProcessUpload cfg m.cmd m
  else if m.cmd.group = 4 then ProcessExec cfg m.cmd m
  else if m.cmd.group = 5 then ProcessRead m.cmd m
  else if m.cmd.group = 6 then ProcessSelect m.cmd m
  else m

/-- `UpdateState`: the poll transition applied on every GETSTATUS. -/
def UpdateState (s : Nat) : Nat :=
  if s = dfuDNLOAD_SYNC then dfuDNLOAD_IDLE
  else if s = dfuUPLOAD_IDLE then dfuIDLE
  else if s = dfuMANIFEST_SYNC then dfuIDLE
  else s

/-- Reading the FLIP command out of a non-empty DNLOAD packet: the group
byte always, data byte `i` only when `i < 5 && i < wLength - 1` (stale
bytes are retained otherwise). -/
def readFlip (old incoming : Flip) (wLen : Nat) : Flip :=
  { group := incoming.group % 256
  , d0 := if 0 < wLen - 1 then incoming.d0 % 256 else old.d0
  , d1 := if 1 < wLen - 1 then incoming.d1 % 256 else old.d1
  , d2 := if 2 < wLen - 1 then incoming.d2 % 256 else old.d2
  , d3 := if 3 < wLen - 1 then incoming.d3 % 256 else old.d3
  , d4 := if 4 < wLen - 1 then incoming.d4 % 256 else old.d4 }

/-- The DNLOAD-time dispatch test (lines 546-553): commands processed
during the DNLOAD request itself; all others set `waitForSecondRequest`. -/
def immediateCmd (c : Flip) : Bool :=
  c.group == 1 ||
    (c.group == 3 && (c.d0 == 1 || c.d0 == 3 || c.d0 == 17)) ||
    c.group == 4 || c.group == 6

/-- The UPLOAD-time test for a remembered blank-check command
(lines 574-578). -/
def blankCheckCmd (c : Flip) : Bool :=
  c.group == 3 && (c.d0 == 1 || c.d0 == 3 || c.d0 == 17)

/-- The `DFU_DNLOAD` case of the control-request handler. -/
def dnloadCase (cfg : Cfg) (wLen : Nat) (incoming : Flip) (m : Mach) : Mach :=
  if wLen ≠ 0 then
    let c := readFlip m.cmd incoming wLen
    let m2 := { m with cmd := c, waitForSecondRequest := !immediateCmd c,
                       events := m.events ++ [Ev.clearOut] }
    if !immediateCmd c then m2 else ProcessFlipCommand cfg m2
  else
    { m with events := m.events ++ [Ev.startApp] }

/-- The `DFU_GETSTATUS` case: poll transition, then the 6-byte status
response (status, three zero poll-timeout bytes, state, zero string
index). -/
def getstatusCase (m : Mach) : Mach :=
  { m with dfuState := UpdateState m.dfuState,
           events := m.events ++
             [Ev.outByte m.dfuStatus, Ev.outByte 0, Ev.outByte 0, Ev.outByte 0,
              Ev.outByte (UpdateState m.dfuState), Ev.outByte 0, Ev.clearIn] }

/-- The `DFU_UPLOAD` case: serve a remembered blank-check result, or
dispatch the remembered command and fall through into the GETSTATUS case
(the source `switch` has no `break` between them). -/
def uploadCase (cfg : Cfg) (m : Mach) : Mach :=
  if blankCheckCmd m.cmd then
    { m with events := m.events ++ [Ev.outWord (m.nonBlankAddr % 65536), Ev.clearIn] }
  else
    getstatusCase (ProcessFlipCommand cfg m)

/-- The `DFU_CLRSTATUS` case. -/
def clrstatusCase (m : Mach) : Mach :=
  { m with dfuState := dfuIDLE, dfuStatus := statusOK }

/-- The `DFU_ABORT` case. -/
def abortCase (m : Mach) : Mach :=
  { m with dfuState := dfuIDLE, dfuStatus := statusOK }

/-- The `DFU_GETSTATE` case. -/
def getstateCase (m : Mach) : Mach :=
  { m with events := m.events ++ [Ev.outByte m.dfuState, Ev.clearIn] }

/-- `EVENT_USB_Device_UnhandledControlRequest`: ack the SETUP packet,
switch on `bRequest`, and clear the status stage. -/
def EVENT_USB_Device_UnhandledControlRequest
    (cfg : Cfg) (bRequest wLen : Nat) (incoming : Flip) (m : Mach) : Mach :=
  let m0 := { m with events := m.events ++ [Ev.clearSetup] }
  let m1 :=
    if bRequest = 0 then m0
    else if bRequest = 1 then dnloadCase cfg wLen incoming m0
    else if bRequest = 2 then uploadCase cfg m0
    else if bRequest = 3 then getstatusCase m0
    else if bRequest = 4 then clrstatusCase m0
    else if bRequest = 5 then getstateCase m0
    else if bRequest = 6 then abortCase m0
    else m0
  { m1 with events := m1.events ++ [Ev.clearStatusStage] }

/-- Event classifiers used in counting theorems. -/
def isErase : Ev → Bool
  | .erase _ => true
  | _ => false

def isCommit : Ev → Bool
  | .commit _ => true
  | _ => false

def isEepWrite : Ev → Bool
  | .eepWrite _ => true
  | _ => false

/-! ## Concrete fixtures used by witnesses and counterexamples -/

/-- A concrete configuration with realistic build constants
(`SPM_PAGESIZE = 128`, `FIXED_CONTROL_ENDPOINT_SIZE = 32`) and all-blank
memories. -/
def cfg0 : Cfg :=
  { P := 128, EP := 32, DP := 256, boot := 4096, fuel := 600,
    flashMem := fun _ => 255, eepMem := fun _ => 255, dfMem := fun _ => 255 }

/-- The reset-default FLIP command record (all zero). -/
def flip0 : Flip := { group := 0, d0 := 0, d1 := 0, d2 := 0, d3 := 0, d4 := 0 }

/-- The reset-default machine: `DFU_State = dfuIDLE`, `DFU_Status = OK`,
bank 0, empty trace. -/
def m0 : Mach :=
  { dfuState := dfuIDLE, dfuStatus := statusOK, nonBlankAddr := 0, bank := 0,
    cmd := flip0, waitForSecondRequest := false, appStartPtr := 0, events := [] }

/-! ## Claim C6: the GETSTATUS poll transition -/

/-- Claim C6: `UpdateState` maps DownloadSync to DownloadIdle, UploadIdle
to Idle and ManifestSync to Idle, and leaves every other state value (in
particular Idle, DownloadIdle, DownloadBusy and Error) unchanged, so
repeated polls in those states never change the state. -/
theorem updateState_poll_transition :
    UpdateState dfuDNLOAD_SYNC = dfuDNLOAD_IDLE ∧
    UpdateState dfuUPLOAD_IDLE = dfuIDLE ∧
    UpdateState dfuMANIFEST_SYNC = dfuIDLE ∧
    (∀ s : Nat, s ≠ dfuDNLOAD_SYNC → s ≠ dfuUPLOAD_IDLE → s ≠ dfuMANIFEST_SYNC →
      UpdateState s = s) ∧
    UpdateState dfuIDLE = dfuIDLE ∧
    UpdateState dfuDNLOAD_IDLE = dfuDNLOAD_IDLE ∧
    UpdateState dfuDNBUSY = dfuDNBUSY ∧
    UpdateState dfuERROR = dfuERROR := by
  refine ⟨rfl, rfl, rfl, ?_, rfl, rfl, rfl, rfl⟩
  intro s h1 h2 h3
  simp [UpdateState, h1, h2, h3]

/-- Witness for C6: the fixed-point clause applied at the concrete state
value 7 (`dfuMANIFEST`). -/
theorem updateState_poll_transition_witness : UpdateState 7 = 7 :=
  updateState_poll_transition.2.2.2.1 7 (by decide) (by decide) (by decide)

/-! ## Claim C7: CLRSTATUS and ABORT are the same reset -/

/-- Claim C7: for every prior machine state, the CLRSTATUS request and the
ABORT request produce identical results, both setting state to Idle and
status to Ok with no other effect beyond the control-transfer
acknowledgements. -/
theorem clrstatus_abort_equivalent (cfg cfg' : Cfg) (wLen wLen' : Nat)
    (inc inc' : Flip) (m : Mach) :
    EVENT_USB_Device_UnhandledControlRequest cfg 4 wLen inc m =
      EVENT_USB_Device_UnhandledControlRequest cfg' 6 wLen' inc' m ∧
    EVENT_USB_Device_UnhandledControlRequest cfg 4 wLen inc m =
      { m with dfuState := dfuIDLE, dfuStatus := statusOK,
               events := m.events ++ [Ev.clearSetup, Ev.clearStatusStage] } := by
  constructor <;>
    simp [EVENT_USB_Device_UnhandledControlRequest, clrstatusCase, abortCase]

/-! ## Claim C1: streaming commands outside Idle -/

/-- Claim C1: every streaming command (Download to flash, EEPROM or
dataflash; Upload display-data for flash, EEPROM or dataflash) issued
while `DFU_State` is not `dfuIDLE` sets the state to `dfuERROR` and
changes nothing else: the status code, the blank-check result, the bank,
the remembered command and the side-effect trace are all left untouched,
so no memory write, erase or read occurs. -/
theorem streaming_command_guard (cfg : Cfg) (c : Flip) (m : Mach)
    (h : m.dfuState ≠ dfuIDLE) :
    (c.d0 = 0 ∨ c.d0 = 1 ∨ c.d0 = 16 →
      ProcessDownload cfg c m = { m with dfuState := dfuERROR }) ∧
    (c.d0 = 0 ∨ c.d0 = 2 ∨ c.d0 = 16 →
      ProcessUpload cfg c m = { m with dfuState := dfuERROR }) := by
  constructor <;> rintro (h0 | h0 | h0) <;>
    simp [ProcessDownload, ProcessUpload, h0, h]

/-- Witness for C1: a flash Download received in `dfuERROR` state is
refused with no side effects. -/
theorem streaming_command_guard_witness :
    ProcessDownload cfg0 flip0 { m0 with dfuState := dfuERROR } =
      { m0 with dfuState := dfuERROR } :=
  ((streaming_command_guard cfg0 flip0 { m0 with dfuState := dfuERROR }
    (by decide)).1 (Or.inl rfl)).trans (by decide)

/-! ## Helper lemmas about the blank-check scan -/

/-- Over an all-blank window the scan finds nothing and reads every cell
`cur ≤ a < e` in order. -/
theorem blankScan_all_blank (mem : Nat → Nat) (e : Nat) :
    ∀ fuel cur, e - cur ≤ fuel → (∀ a, cur ≤ a → a < e → mem a = 255) →
    blankScan mem e fuel cur = (none, List.range' cur (e - cur)) := by
  intro fuel
  induction fuel with
  | zero =>
    intro cur hd _
    rw [blankScan, show e - cur = 0 by omega]
    rfl
  | succ n ih =>
    intro cur hd hb
    by_cases hc : cur < e
    · have hm : mem cur = 255 := hb cur le_rfl hc
      rw [blankScan, if_pos hc, if_neg (by simp [hm]),
        ih (cur + 1) (by omega) (fun a ha hae => hb a (by omega) hae)]
      show (none, cur :: List.range' (cur + 1) (e - (cur + 1))) =
        ((none : Option Nat), List.range' cur (e - cur))
      conv_rhs => rw [show e - cur = (e - (cur + 1)) + 1 from by omega,
        List.range'_succ]
    · rw [blankScan, if_neg hc, show e - cur = 0 by omega]
      rfl

/-- If `A` is the first non-blank address of the window, the scan returns
exactly `A` and reads exactly the cells `cur ≤ a ≤ A` (nothing past `A`). -/
theorem blankScan_first_violation (mem : Nat → Nat) (e A : Nat)
    (hA : mem A ≠ 255) (hAe : A < e) :
    ∀ fuel cur, A - cur < fuel → cur ≤ A →
    (∀ a, cur ≤ a → a < A → mem a = 255) →
    blankScan mem e fuel cur = (some A, List.range' cur (A - cur + 1)) := by
  intro fuel
  induction fuel with
  | zero =>
    intro cur hd
    omega
  | succ n ih =>
    intro cur hd hcA hb
    by_cases hcur : cur = A
    · subst hcur
      rw [blankScan, if_pos hAe, if_pos hA, Nat.sub_self]
      rfl
    · have hc : cur < e := by omega
      have hm : mem cur = 255 := hb cur le_rfl (by omega)
      rw [blankScan, if_pos hc, if_neg (by simp [hm]),
        ih (cur + 1) (by omega) (by omega) (fun a ha haA => hb a (by omega) haA)]
      show (some A, cur :: List.range' (cur + 1) (A - (cur + 1) + 1)) =
        (some A, List.range' cur (A - cur + 1))
      conv_rhs => rw [show A - cur + 1 = (A - (cur + 1) + 1) + 1 from by omega,
        List.range'_succ]

/-- Every address the scan reads lies strictly below the end address. -/
theorem blankScan_reads_below_end (mem : Nat → Nat) (e : Nat) :
    ∀ fuel cur a, a ∈ (blankScan mem e fuel cur).2 → cur ≤ a ∧ a < e := by
  intro fuel
  induction fuel with
  | zero =>
    intro cur a ha
    rw [blankScan] at ha
    simp at ha
  | succ n ih =>
    intro cur a ha
    rw [blankScan] at ha
    by_cases hc : cur < e
    · rw [if_pos hc] at ha
      by_cases hm : mem cur ≠ 255
      · rw [if_pos hm] at ha
        simp at ha
        omega
      · rw [if_neg hm] at ha
        simp at ha
        rcases ha with ha | ha
        · omega
        · have := ih (cur + 1) a ha
          omega
    · rw [if_neg hc] at ha
      simp at ha

/-! ## Claim C3: the blank-check scan -/

/-- A configuration whose dataflash reads back all zero (fully non-blank). -/
def cfgDF : Cfg := { cfg0 with dfMem := fun _ => 0 }

/-- A dataflash blank-check command (group Upload, opcode 0x11) over the
window bytes `00 00 / 00 04`. -/
def bc11 : Flip := { group := 3, d0 := 17, d1 := 0, d2 := 0, d3 := 0, d4 := 4 }

/-- The reset machine with the 64KB bank register set to 1. -/
def mBank1 : Mach := { m0 with bank := 1 }

/-- Counterexample for C3: with bank 1 the dataflash blank-check window is
`[0x10000, 0x10004)`; the scan's first violation is at address `0x10000`,
but the stored `nonBlankAddr` is a `uint16_t`, so the recorded result is
`0`, not the violating address `65536`. -/
theorem blank_check_stores_truncated_cex :
    (blankScan cfgDF.dfMem 65540 4 65536).1 = some 65536 ∧
    (ProcessUpload cfgDF bc11 mBank1).dfuState = dfuERROR ∧
    (ProcessUpload cfgDF bc11 mBank1).dfuStatus = errCHECK_ERASED ∧
    (ProcessUpload cfgDF bc11 mBank1).nonBlankAddr = 0 ∧
    (0 : Nat) ≠ 65536 := by
  refine ⟨rfl, rfl, rfl, rfl, by decide⟩

/-- Claim C3 (amended): for a blank-check scan over a window, an all-0xFF
window leaves state, status and the stored result unchanged and reads
exactly the cells `[start, end)`; a window whose lowest non-0xFF cell is
at address `A` yields state Error, status CheckErased, reads exactly the
cells `[start, A]` (nothing past `A`, short-circuit), and stores `A`
itself for the flash scan, and the low 16 bits `A % 2^16` for the
dataflash scan (whose effective addresses exceed 16 bits when the bank
register is nonzero). -/
theorem blank_check_scan (cfg : Cfg) (c : Flip) (m : Mach) :
    (c.d0 = 1 →
      ((∀ a, addr16 c.d1 c.d2 ≤ a → a < addr16 c.d3 c.d4 → cfg.flashMem a = 255) →
        ProcessUpload cfg c m =
          { m with events := m.events ++
              (List.range' (addr16 c.d1 c.d2)
                (addr16 c.d3 c.d4 - addr16 c.d1 c.d2)).map Ev.flashRead }) ∧
      (∀ A, addr16 c.d1 c.d2 ≤ A → A < addr16 c.d3 c.d4 →
        cfg.flashMem A ≠ 255 →
        (∀ a, addr16 c.d1 c.d2 ≤ a → a < A → cfg.flashMem a = 255) →
        ProcessUpload cfg c m =
          { m with dfuState := dfuERROR, dfuStatus := errCHECK_ERASED,
                   nonBlankAddr := A,
                   events := m.events ++
                     (List.range' (addr16 c.d1 c.d2)
                       (A - addr16 c.d1 c.d2 + 1)).map Ev.flashRead })) ∧
    (c.d0 = 17 →
      ((∀ a, 65536 * (m.bank % 256) + addr16 c.d1 c.d2 ≤ a →
          a < 65536 * (m.bank % 256) + addr16 c.d3 c.d4 → cfg.dfMem a = 255) →
        ProcessUpload cfg c m =
          { m with events := m.events ++
              (Ev.dfSelect ::
                Ev.dfConfR ((65536 * (m.bank % 256) + addr16 c.d1 c.d2) / cfg.DP)
                  ((65536 * (m.bank % 256) + addr16 c.d1 c.d2) % cfg.DP) ::
                ((List.range' (65536 * (m.bank % 256) + addr16 c.d1 c.d2)
                    (addr16 c.d3 c.d4 - addr16 c.d1 c.d2)).map Ev.dfRead ++
                  [Ev.dfDeselect])) }) ∧
      (∀ A, 65536 * (m.bank % 256) + addr16 c.d1 c.d2 ≤ A →
        A < 65536 * (m.bank % 256) + addr16 c.d3 c.d4 →
        cfg.dfMem A ≠ 255 →
        (∀ a, 65536 * (m.bank % 256) + addr16 c.d1 c.d2 ≤ a → a < A →
          cfg.dfMem a = 255) →
        ProcessUpload cfg c m =
          { m with dfuState := dfuERROR, dfuStatus := errCHECK_ERASED,
                   nonBlankAddr := A % 65536,
                   events := m.events ++
                     (Ev.dfSelect ::
                       Ev.dfConfR ((65536 * (m.bank % 256) + addr16 c.d1 c.d2) / cfg.DP)
                         ((65536 * (m.bank % 256) + addr16 c.d1 c.d2) % cfg.DP) ::
                       ((List.range' (65536 * (m.bank % 256) + addr16 c.d1 c.d2)
                           (A - (65536 * (m.bank % 256) + addr16 c.d1 c.d2) + 1)).map
                           Ev.dfRead ++
                         [Ev.dfDeselect])) })) := by
  constructor
  · intro h1
    constructor
    · intro hb
      have hs := blankScan_all_blank cfg.flashMem (addr16 c.d3 c.d4)
        (addr16 c.d3 c.d4 - addr16 c.d1 c.d2) (addr16 c.d1 c.d2) le_rfl hb
      simp [ProcessUpload, h1, hs]
    · intro A hsA hAe hA hmin
      have hA16 : A % 65536 = A := by
        have : addr16 c.d3 c.d4 < 65536 := by
          unfold addr16
          have := Nat.mod_lt c.d3 (show 0 < 256 by decide)
          have := Nat.mod_lt c.d4 (show 0 < 256 by decide)
          omega
        exact Nat.mod_eq_of_lt (by omega)
      have hs := blankScan_first_violation cfg.flashMem (addr16 c.d3 c.d4) A hA hAe
        (addr16 c.d3 c.d4 - addr16 c.d1 c.d2) (addr16 c.d1 c.d2) (by omega) hsA hmin
      simp [ProcessUpload, h1, hs, hA16]
  · intro h17
    constructor
    · intro hb
      have hs := blankScan_all_blank cfg.dfMem
        (65536 * (m.bank % 256) + addr16 c.d3 c.d4)
        (65536 * (m.bank % 256) + addr16 c.d3 c.d4 -
          (65536 * (m.bank % 256) + addr16 c.d1 c.d2))
        (65536 * (m.bank % 256) + addr16 c.d1 c.d2) le_rfl hb
      simp [ProcessUpload, h17, hs]
      congr 2
      omega
    · intro A hsA hAe hA hmin
      have hs := blankScan_first_violation cfg.dfMem
        (65536 * (m.bank % 256) + addr16 c.d3 c.d4) A hA hAe
        (65536 * (m.bank % 256) + addr16 c.d3 c.d4 -
          (65536 * (m.bank % 256) + addr16 c.d1 c.d2))
        (65536 * (m.bank % 256) + addr16 c.d1 c.d2) (by omega) hsA hmin
      simp [ProcessUpload, h17, hs]

/-- Witness for C3: a flash blank-check over the all-blank window
`[0, 8)` of `cfg0` reads the eight cells and changes nothing. -/
theorem blank_check_scan_witness :
    ProcessUpload cfg0 { flip0 with group := 3, d0 := 1, d4 := 8 } m0 =
      { m0 with events := (List.range' 0 8).map Ev.flashRead } :=
  (((blank_check_scan cfg0 { flip0 with group := 3, d0 := 1, d4 := 8 } m0).1
    rfl).1 (fun _ _ _ => rfl)).trans (by decide)

/-! ## Claim C4: the three blank-check opcodes -/

/-- A configuration whose EEPROM reads back all zero (fully non-blank). -/
def cfgEE : Cfg := { cfg0 with eepMem := fun _ => 0 }

/-- An EEPROM blank-check command (group Upload, opcode 0x03) over the
window `[0, 4)`. -/
def bc03 : Flip := { group := 3, d0 := 3, d1 := 0, d2 := 0, d3 := 0, d4 := 4 }

/-- Counterexample for C4: the control-request dispatcher routes opcode
0x03 as an immediate blank-check command, but `ProcessUpload` has no
branch for it (the EEPROM blank-check code is commented out in the
source), so the command performs no scan at all: even over a completely
non-blank EEPROM window the machine is returned unchanged — no read, no
state change, no status change. -/
theorem eeprom_blank_check_noop_cex :
    immediateCmd bc03 = true ∧ blankCheckCmd bc03 = true ∧
    cfgEE.eepMem 0 ≠ 255 ∧
    ProcessUpload cfgEE bc03 m0 = m0 := by
  refine ⟨rfl, rfl, by decide, rfl⟩

/-- Claim C4 (amended): the flash (0x01) and dataflash (0x11) blank-check
opcodes are accepted regardless of the current DFU state — the machine
argument `m` below is arbitrary, in particular its `dfuState` — and
perform an immediate, non-streamed scan that reads every cell of the
decoded window when the window is blank (the scan short-circuits at the
first non-blank cell otherwise, per C3); the EEPROM blank-check opcode
0x03, although routed for immediate processing by the dispatcher, matches
no branch of `ProcessUpload` (its implementation is commented out) and
performs no scan and no change whatsoever. -/
theorem blank_check_no_idle_precondition (cfg : Cfg) (c : Flip) (m : Mach) :
    (c.d0 = 1 →
      (∀ a, addr16 c.d1 c.d2 ≤ a → a < addr16 c.d3 c.d4 → cfg.flashMem a = 255) →
      ProcessUpload cfg c m =
        { m with events := m.events ++
            (List.range' (addr16 c.d1 c.d2)
              (addr16 c.d3 c.d4 - addr16 c.d1 c.d2)).map Ev.flashRead }) ∧
    (c.d0 = 17 →
      (∀ a, 65536 * (m.bank % 256) + addr16 c.d1 c.d2 ≤ a →
        a < 65536 * (m.bank % 256) + addr16 c.d3 c.d4 → cfg.dfMem a = 255) →
      ProcessUpload cfg c m =
        { m with events := m.events ++
            (Ev.dfSelect ::
              Ev.dfConfR ((65536 * (m.bank % 256) + addr16 c.d1 c.d2) / cfg.DP)
                ((65536 * (m.bank % 256) + addr16 c.d1 c.d2) % cfg.DP) ::
              ((List.range' (65536 * (m.bank % 256) + addr16 c.d1 c.d2)
                  (addr16 c.d3 c.d4 - addr16 c.d1 c.d2)).map Ev.dfRead ++
                [Ev.dfDeselect])) }) ∧
    (c.d0 = 3 → ProcessUpload cfg c m = m) := by
  refine ⟨?_, ?_, ?_⟩
  · intro h1 hb
    have hs := blankScan_all_blank cfg.flashMem (addr16 c.d3 c.d4)
      (addr16 c.d3 c.d4 - addr16 c.d1 c.d2) (addr16 c.d1 c.d2) le_rfl hb
    simp [ProcessUpload, h1, hs]
  · intro h17 hb
    have hs := blankScan_all_blank cfg.dfMem
      (65536 * (m.bank % 256) + addr16 c.d3 c.d4)
      (65536 * (m.bank % 256) + addr16 c.d3 c.d4 -
        (65536 * (m.bank % 256) + addr16 c.d1 c.d2))
      (65536 * (m.bank % 256) + addr16 c.d1 c.d2) le_rfl hb
    simp [ProcessUpload, h17, hs]
    congr 2
    omega
  · intro h3
    simp [ProcessUpload, h3]

/-- Witness for C4: a flash blank-check in `dfuERROR` state over the
all-blank window `[0, 4)` still runs and reads the four cells, and the
0x03 command leaves an error-state machine untouched. -/
theorem blank_check_no_idle_precondition_witness :
    ProcessUpload cfg0 { flip0 with group := 3, d0 := 1, d4 := 4 }
        { m0 with dfuState := dfuERROR } =
      { m0 with dfuState := dfuERROR,
                events := (List.range' 0 4).map Ev.flashRead } ∧
    ProcessUpload cfg0 bc03 { m0 with dfuState := dfuERROR } =
      { m0 with dfuState := dfuERROR } :=
  ⟨((blank_check_no_idle_precondition cfg0
      { flip0 with group := 3, d0 := 1, d4 := 4 }
      { m0 with dfuState := dfuERROR }).1 rfl (fun _ _ _ => rfl)).trans (by decide),
   (blank_check_no_idle_precondition cfg0 bc03
      { m0 with dfuState := dfuERROR }).2.2 rfl⟩

/-! ## Helper lemmas: download loops terminate only past the end address -/

/-- The flash download loop reaches ManifestSync only with the cursor at a
page boundary strictly past the end address. -/
theorem flashGo_only_past_end (P EP s e : Nat) :
    ∀ fuel cur i, (flashGo P EP s e fuel cur i).2.2 = true →
      e < (flashGo P EP s e fuel cur i).2.1 ∧
      (flashGo P EP s e fuel cur i).2.1 % P = 0 := by
  intro fuel
  induction fuel with
  | zero => intro cur i h; simp [flashGo] at h
  | succ n ih =>
    intro cur i
    by_cases hi : i < EP
    · by_cases hb : cur % P = 0
      · by_cases ht : e < cur
        · intro _
          simp [flashGo, hi, hb, ht]
        · intro h
          simp [flashGo, hi, hb, ht] at h ⊢
          exact ih _ _ h
      · intro h
        simp [flashGo, hi, hb] at h ⊢
        exact ih _ _ h
    · intro h
      simp [flashGo, hi] at h ⊢
      exact ih _ _ h

/-- The EEPROM download loop reaches ManifestSync only with the cursor
strictly past the end address. -/
theorem eepGo_only_past_end (EP e : Nat) :
    ∀ fuel cur i, (eepGo EP e fuel cur i).2.2 = true →
      e < (eepGo EP e fuel cur i).2.1 := by
  intro fuel
  induction fuel with
  | zero => intro cur i h; simp [eepGo] at h
  | succ n ih =>
    intro cur i
    by_cases hi : i < EP
    · by_cases ht : e < cur
      · intro _
        simp [eepGo, hi, ht]
      · intro h
        simp [eepGo, hi, ht] at h ⊢
        exact ih _ _ h
    · intro h
      simp [eepGo, hi] at h ⊢
      exact ih _ _ h

/-- The dataflash download loop reaches ManifestSync only with the cursor
strictly past the end address. -/
theorem dfGo_only_past_end (DP EP s e : Nat) :
    ∀ fuel cur i, (dfGo DP EP s e fuel cur i).2.2 = true →
      e < (dfGo DP EP s e fuel cur i).2.1 := by
  intro fuel
  induction fuel with
  | zero => intro cur i h; simp [dfGo] at h
  | succ n ih =>
    intro cur i
    by_cases hb : cur ≠ s ∧ cur % DP = 0
    · by_cases hi : i < EP
      · by_cases ht : e < cur
        · intro _
          simp [dfGo, hi, hb, ht]
        · intro h
          simp [dfGo, hi, hb, ht] at h ⊢
          exact ih _ _ h
      · intro h
        simp [dfGo, hi] at h ⊢
        exact ih _ _ h
    · by_cases hi : i < EP
      · intro h
        simp [dfGo, hi, hb] at h ⊢
        exact ih _ _ h
      · intro h
        simp [dfGo, hi] at h ⊢
        exact ih _ _ h

/-! ## Helper lemma: the EEPROM download writes exactly [start, end] -/

/-- With enough fuel and a non-wrapping window, the EEPROM download loop
terminates at cursor `e + 1` and its write events are exactly the cells
`cur, cur+1, ..., e` — the end address included. -/
theorem eepGo_writes (EP e : Nat) (hEP : 0 < EP) (he : e + 1 < 65536) :
    ∀ fuel cur i, cur ≤ e + 1 →
      2 * (e + 1 - cur) + 2 + (if i < EP then 0 else 1) ≤ fuel →
      (eepGo EP e fuel cur i).2.2 = true ∧
      (eepGo EP e fuel cur i).2.1 = e + 1 ∧
      (eepGo EP e fuel cur i).1.filter isEepWrite =
        (List.range' cur (e + 1 - cur)).map Ev.eepWrite := by
  intro fuel
  induction fuel with
  | zero =>
    intro cur i _ hf
    by_cases hi : i < EP <;> simp [hi] at hf
  | succ n ih =>
    intro cur i hc hf
    by_cases hi : i < EP
    · simp only [if_pos hi] at hf
      by_cases ht : e < cur
      · have hce : cur = e + 1 := by omega
        subst hce
        simp [eepGo, hi, ht, List.filter, isEepWrite]
      · have hcur2 : (cur + 1) % 65536 = cur + 1 := Nat.mod_eq_of_lt (by omega)
        have hf' : 2 * (e + 1 - (cur + 1)) + 2 + (if i + 1 < EP then 0 else 1) ≤ n := by
          by_cases hi2 : i + 1 < EP <;> simp [hi2] <;> omega
        have hr := ih (cur + 1) (i + 1) (by omega) hf'
        simp [eepGo, hi, ht, hcur2, List.filter_cons, isEepWrite, hr.1, hr.2.1, hr.2.2]
        conv_rhs => rw [show e + 1 - cur = (e + 1 - (cur + 1)) + 1 from by omega,
          List.range'_succ]
        simp
    · simp only [if_neg hi] at hf
      have hf' : 2 * (e + 1 - cur) + 2 + (if 0 < EP then 0 else 1) ≤ n := by
        simp [hEP]
        omega
      have hr := ih cur 0 hc hf'
      simp [eepGo, hi, List.filter_cons, hr.1, hr.2.1, hr.2.2, isEepWrite]

/-! ## Helper lemmas: display loops never start at or past the end -/

/-- The flash display loop sends nothing when the cursor is not strictly
below the end address. -/
theorem flUpGo_no_window (EP e : Nat) :
    ∀ fuel cur, e ≤ cur → flUpGo EP e fuel cur = ([], cur) := by
  intro fuel cur h
  cases fuel <;> simp [flUpGo, Nat.not_lt.mpr h]

/-- The EEPROM display loop sends nothing when the cursor is not strictly
below the end address. -/
theorem eepUpGo_no_window (EP e : Nat) :
    ∀ fuel cur, e ≤ cur → eepUpGo EP e fuel cur = ([], cur) := by
  intro fuel cur h
  cases fuel <;> simp [eepUpGo, Nat.not_lt.mpr h]

/-- The dataflash display loop sends nothing when the cursor is not
strictly below the end address. -/
theorem dfUpGo_no_window (EP e : Nat) :
    ∀ fuel cur, e ≤ cur → dfUpGo EP e fuel cur = ([], cur) := by
  intro fuel cur h
  cases fuel <;> simp [dfUpGo, Nat.not_lt.mpr h]

/-! ## Claim C9: inclusive download end vs exclusive upload end -/

/-- Claim C9: the two ends of a decoded window are treated asymmetrically.
Every download loop (flash, EEPROM, dataflash) terminates only once the
cursor has strictly passed the end address (test `curAddr > endAddr`), and
the EEPROM download writes exactly the cells `start..end` — the end
address included, `end - start + 1` cells.  Every upload-side loop treats
the end exclusively (`curAddr < endAddr`): a blank-check scan only ever
reads addresses strictly below the end (`end - start` cells over a blank
window), and each display-data loop sends nothing at all once the cursor
is at or past the end.  The same start/end payload bytes therefore denote
one more addressed unit when downloading than when scanning the window
back. -/
theorem download_upload_window_asymmetry :
    (∀ P EP s e fuel cur i, (flashGo P EP s e fuel cur i).2.2 = true →
      e < (flashGo P EP s e fuel cur i).2.1) ∧
    (∀ EP e fuel cur i, (eepGo EP e fuel cur i).2.2 = true →
      e < (eepGo EP e fuel cur i).2.1) ∧
    (∀ DP EP s e fuel cur i, (dfGo DP EP s e fuel cur i).2.2 = true →
      e < (dfGo DP EP s e fuel cur i).2.1) ∧
    (∀ EP s e fuel, 0 < EP → s ≤ e → e + 1 < 65536 →
      2 * (e + 1 - s) + 2 ≤ fuel →
      (eepGo EP e fuel s 0).1.filter isEepWrite =
        (List.range' s (e + 1 - s)).map Ev.eepWrite) ∧
    (∀ mem e fuel cur a, a ∈ (blankScan mem e fuel cur).2 → a < e) ∧
    (∀ mem e s, (∀ a, s ≤ a → a < e → mem a = 255) →
      (blankScan mem e (e - s) s).2.length = e - s) ∧
    (∀ EP e fuel cur, e ≤ cur → flUpGo EP e fuel cur = ([], cur)) ∧
    (∀ EP e fuel cur, e ≤ cur → eepUpGo EP e fuel cur = ([], cur)) ∧
    (∀ EP e fuel cur, e ≤ cur → dfUpGo EP e fuel cur = ([], cur)) := by
  refine ⟨fun P EP s e fuel cur i h => (flashGo_only_past_end P EP s e fuel cur i h).1,
    eepGo_only_past_end, dfGo_only_past_end, ?_, ?_, ?_,
    flUpGo_no_window, eepUpGo_no_window, dfUpGo_no_window⟩
  · intro EP s e fuel hEP hse he hf
    exact (eepGo_writes EP e hEP he fuel s 0 (by omega) (by simp [hEP]; omega)).2.2
  · intro mem e fuel cur a ha
    exact (blankScan_reads_below_end mem e fuel cur a ha).2
  · intro mem e s hb
    rw [blankScan_all_blank mem e (e - s) s le_rfl hb]
    simp

/-- Witness for C9: over the window bytes denoting `[0, 9]`, the EEPROM
download writes the ten cells `0..9` (end included) while the display
loop started at the end sends nothing. -/
theorem download_upload_window_asymmetry_witness :
    (eepGo 4 9 50 0 0).1.filter isEepWrite =
      (List.range' 0 10).map Ev.eepWrite ∧
    eepUpGo 4 9 50 9 = ([], 9) :=
  ⟨download_upload_window_asymmetry.2.2.2.1 4 0 9 50 (by decide) (by decide)
      (by decide) (by decide),
    download_upload_window_asymmetry.2.2.2.2.2.2.2.1 4 9 50 9 (by decide)⟩

/-! ## Arithmetic helpers for the flash page-boundary counting -/

/-- Stepping an even distance `d` down by 2 does not change `d / P` when
`P` does not divide `d` (no multiple of the even page size is crossed). -/
theorem div_sub_two_of_not_dvd (P d : Nat) (hP : 2 ≤ P) (h2P : 2 ∣ P)
    (h2d : 2 ∣ d) (hnd : ¬ P ∣ d) : d / P = (d - 2) / P := by
  have hP0 : 0 < P := by omega
  have hdm := Nat.div_add_mod d P
  have hml : d % P < P := Nat.mod_lt d hP0
  have hm0 : d % P ≠ 0 := fun h => hnd (Nat.dvd_of_mod_eq_zero h)
  have h2m : 2 ∣ d % P := by
    have : 2 ∣ P * (d / P) := Dvd.dvd.mul_right h2P _
    omega
  have hsub : d - 2 = (d % P - 2) + P * (d / P) := by omega
  rw [hsub, Nat.add_mul_div_left _ _ hP0,
    Nat.div_eq_of_lt (show d % P - 2 < P from by omega)]
  omega

/-- Stepping an even distance `d` down by 2 decrements `d / P` exactly
when `P` divides `d` (a page boundary is crossed). -/
theorem div_sub_two_of_dvd (P d : Nat) (hP : 2 ≤ P) (hdvd : P ∣ d)
    (hd : 0 < d) : d / P = (d - 2) / P + 1 := by
  have hP0 : 0 < P := by omega
  obtain ⟨k, hk⟩ := hdvd
  cases k with
  | zero => omega
  | succ k =>
    subst hk
    rw [Nat.mul_succ,
      show P * k + P - 2 = P * k + (P - 2) from by omega,
      Nat.mul_add_div hP0, Nat.mul_add_div hP0,
      Nat.div_eq_of_lt (show P - 2 < P from by omega),
      Nat.div_self hP0]

/-! ## The flash download loop: full run characterization -/

/-- Main helper for the flash streaming loop.  For a page-aligned,
non-wrapping window, the loop terminates in ManifestSync exactly at
`B = P * (e / P + 1)`, the first page boundary past the end address; from
a cursor `cur` inside the walk it performs `(B - cur) / P + 1` erases and
one commit per erase except at the very first boundary `s`; the trace
ends with the erase of page `B`, the commit of the page before it, the
read-while-write re-enable and the packet acknowledgement; and every even
address from `cur` up to `B` (exclusive) is filled from the stream. -/
theorem flashGo_run (P EP s e B : Nat) (hP : 2 ≤ P) (hP2 : 2 ∣ P) (hEP : 0 < EP)
    (hs : P ∣ s) (hse : s ≤ e) (hBdef : B = P * (e / P + 1)) (hB : B < 65536) :
    ∀ fuel cur i, s ≤ cur → cur ≤ B → 2 ∣ cur →
      B - cur + 2 + (if i < EP then 0 else 1) ≤ fuel →
      (flashGo P EP s e fuel cur i).2.2 = true ∧
      (flashGo P EP s e fuel cur i).2.1 = B ∧
      (flashGo P EP s e fuel cur i).1.countP isErase = (B - cur) / P + 1 ∧
      (flashGo P EP s e fuel cur i).1.countP isCommit =
        (B - cur) / P + (if cur = s then 0 else 1) ∧
      (∃ t, (flashGo P EP s e fuel cur i).1 =
        t ++ [Ev.erase B, Ev.commit ((B + 65534) % 65536), Ev.rww, Ev.clearOut]) ∧
      (∀ a, cur ≤ a → a < B → 2 ∣ a →
        Ev.fill a ∈ (flashGo P EP s e fuel cur i).1) := by
  have hP0 : 0 < P := by omega
  have hdm := Nat.div_add_mod e P
  have hml : e % P < P := Nat.mod_lt e hP0
  have heB : e < B := by rw [hBdef, Nat.mul_succ]; omega
  have hPB : P ∣ B := by rw [hBdef]; exact Dvd.intro _ rfl
  have h2B : 2 ∣ B := dvd_trans hP2 hPB
  have hBm : B % P = 0 := Nat.mod_eq_zero_of_dvd hPB
  have hsm : s % P = 0 := Nat.mod_eq_zero_of_dvd hs
  intro fuel
  induction fuel with
  | zero =>
    intro cur i _ _ _ hf
    exfalso
    rcases Nat.lt_or_ge i EP with hi | hi
    · rw [if_pos hi] at hf; omega
    · rw [if_neg (Nat.not_lt.mpr hi)] at hf; omega
  | succ n ih =>
    intro cur i hsc hcB h2c hf
    by_cases hi : i < EP
    · rw [if_pos hi] at hf
      by_cases hb : cur % P = 0
      · have hPc : P ∣ cur := Nat.dvd_of_mod_eq_zero hb
        by_cases ht : e < cur
        · -- the final boundary: cur must be exactly B
          have hcurB : cur = B := by
            obtain ⟨k, hk⟩ := hPc
            have hkk : e / P + 1 ≤ k := by
              by_contra hcon
              push_neg at hcon
              have hle : P * k ≤ P * (e / P) := Nat.mul_le_mul_left P (by omega)
              omega
            have hBc : B ≤ cur := by
              have := Nat.mul_le_mul_left P hkk
              omega
            omega
          have hcurs : ¬ (cur = s) := by omega
          have heq : flashGo P EP s e (n + 1) cur i =
              ([Ev.erase cur, Ev.commit ((cur + 65534) % 65536), Ev.rww,
                Ev.clearOut], cur, true) := by
            simp [flashGo, hi, hb, ht, hcurs]
          rw [heq]
          have hz : B - cur = 0 := by omega
          refine ⟨rfl, hcurB, ?_, ?_, ?_, ?_⟩
          · rw [hz]
            simp [List.countP_cons, isErase]
          · rw [hz, if_neg hcurs]
            simp [List.countP_cons, isCommit]
          · exact ⟨[], by simp [hcurB]⟩
          · intro a h1 h2 _
            exact absurd h2 (by omega)
        · -- an interior boundary
          have hcB' : cur < B := by omega
          have hc2 : cur + 2 ≤ B := by omega
          have hmod : (cur + 2) % 65536 = cur + 2 := Nat.mod_eq_of_lt (by omega)
          have hfn : B - (cur + 2) + 2 + (if i + 2 < EP then 0 else 1) ≤ n := by
            rcases Nat.lt_or_ge (i + 2) EP with hi2 | hi2
            · rw [if_pos hi2]; omega
            · rw [if_neg (Nat.not_lt.mpr hi2)]; omega
          have hr := ih (cur + 2) (i + 2) (by omega) hc2 (by omega) hfn
          rw [show B - (cur + 2) = B - cur - 2 from by omega] at hr
          have hdiv : (B - cur) / P = (B - cur - 2) / P + 1 :=
            div_sub_two_of_dvd P (B - cur) hP (Nat.dvd_sub' hPB hPc) (by omega)
          have hs2 : ¬ (cur + 2 = s) := by omega
          by_cases hcs : cur = s
          · have heq : flashGo P EP s e (n + 1) cur i =
                (Ev.erase cur :: Ev.rww :: Ev.fill cur ::
                  (flashGo P EP s e n (cur + 2) (i + 2)).1,
                  (flashGo P EP s e n (cur + 2) (i + 2)).2) := by
              simp [flashGo, hi, hb, ht, hmod, if_pos hcs]
            rw [heq]
            refine ⟨hr.1, hr.2.1, ?_, ?_, ?_, ?_⟩
            · simp [List.countP_cons, isErase, hr.2.2.1]
              omega
            · rw [if_pos hcs]
              simp [List.countP_cons, isCommit, hr.2.2.2.1, hs2]
              omega
            · obtain ⟨t, htl⟩ := hr.2.2.2.2.1
              exact ⟨Ev.erase cur :: Ev.rww :: Ev.fill cur :: t, by simp [htl]⟩
            · intro a h1 h2 h3
              by_cases ha : a = cur
              · simp [ha]
              · have hge : cur + 2 ≤ a := by omega
                simp [hr.2.2.2.2.2 a (by omega) h2 h3]
          · have heq : flashGo P EP s e (n + 1) cur i =
                (Ev.erase cur :: Ev.commit ((cur + 65534) % 65536) :: Ev.rww ::
                  Ev.fill cur :: (flashGo P EP s e n (cur + 2) (i + 2)).1,
                  (flashGo P EP s e n (cur + 2) (i + 2)).2) := by
              simp [flashGo, hi, hb, ht, hcs, hmod]
            rw [heq]
            refine ⟨hr.1, hr.2.1, ?_, ?_, ?_, ?_⟩
            · simp [List.countP_cons, isErase, hr.2.2.1]
              omega
            · rw [if_neg hcs]
              simp [List.countP_cons, isCommit, hr.2.2.2.1, hs2]
              omega
            · obtain ⟨t, htl⟩ := hr.2.2.2.2.1
              exact ⟨Ev.erase cur :: Ev.commit ((cur + 65534) % 65536) :: Ev.rww ::
                Ev.fill cur :: t, by simp [htl]⟩
            · intro a h1 h2 h3
              by_cases ha : a = cur
              · simp [ha]
              · have hge : cur + 2 ≤ a := by omega
                simp [hr.2.2.2.2.2 a (by omega) h2 h3]
      · -- inside a page: a plain fill step
        have hcs : ¬ (cur = s) := fun hE => hb (by rw [hE]; exact hsm)
        have hcB' : cur < B := by
          by_contra hcon
          push_neg at hcon
          have hEq : cur = B := by omega
          rw [hEq, hBm] at hb
          exact hb rfl
        have hc2 : cur + 2 ≤ B := by omega
        have hmod : (cur + 2) % 65536 = cur + 2 := Nat.mod_eq_of_lt (by omega)
        have hfn : B - (cur + 2) + 2 + (if i + 2 < EP then 0 else 1) ≤ n := by
          rcases Nat.lt_or_ge (i + 2) EP with hi2 | hi2
          · rw [if_pos hi2]; omega
          · rw [if_neg (Nat.not_lt.mpr hi2)]; omega
        have hr := ih (cur + 2) (i + 2) (by omega) hc2 (by omega) hfn
        rw [show B - (cur + 2) = B - cur - 2 from by omega] at hr
        have hnd : ¬ P ∣ (B - cur) := by
          intro hdd
          have h2 := Nat.dvd_sub' hPB hdd
          rw [show B - (B - cur) = cur from by omega] at h2
          exact hb (Nat.mod_eq_zero_of_dvd h2)
        have hdiv : (B - cur) / P = (B - cur - 2) / P :=
          div_sub_two_of_not_dvd P (B - cur) hP hP2 (by omega) hnd
        have hs2 : ¬ (cur + 2 = s) := by omega
        have heq : flashGo P EP s e (n + 1) cur i =
            (Ev.fill cur :: (flashGo P EP s e n (cur + 2) (i + 2)).1,
              (flashGo P EP s e n (cur + 2) (i + 2)).2) := by
          simp [flashGo, hi, hb, hmod]
        rw [heq]
        refine ⟨hr.1, hr.2.1, ?_, ?_, ?_, ?_⟩
        · simp [List.countP_cons, isErase, hr.2.2.1]
          omega
        · rw [if_neg hcs]
          simp [List.countP_cons, isCommit, hr.2.2.2.1, hs2]
          omega
        · obtain ⟨t, htl⟩ := hr.2.2.2.2.1
          exact ⟨Ev.fill cur :: t, by simp [htl]⟩
        · intro a h1 h2 h3
          by_cases ha : a = cur
          · simp [ha]
          · have hge : cur + 2 ≤ a := by omega
            simp [hr.2.2.2.2.2 a (by omega) h2 h3]
    · -- end of one OUT packet: ack and continue
      rw [if_neg hi] at hf
      have hfn : B - cur + 2 + (if 0 < EP then 0 else 1) ≤ n := by
        rw [if_pos hEP]; omega
      have hr := ih cur 0 hsc hcB h2c hfn
      have heq : flashGo P EP s e (n + 1) cur i =
          (Ev.clearOut :: (flashGo P EP s e n cur 0).1,
            (flashGo P EP s e n cur 0).2) := by
        simp [flashGo, hi]
      rw [heq]
      refine ⟨hr.1, hr.2.1, ?_, ?_, ?_, ?_⟩
      · simp [List.countP_cons, isErase, hr.2.2.1]
      · simp [List.countP_cons, isCommit, hr.2.2.2.1]
      · obtain ⟨t, htl⟩ := hr.2.2.2.2.1
        exact ⟨Ev.clearOut :: t, by simp [htl]⟩
      · intro a h1 h2 h3
        simp [hr.2.2.2.2.2 a h1 h2 h3]

/-! ## Claim C2: erase / commit counts of a flash Download -/

/-- A flash Download command over the window bytes `00 00 / 00 FF`
(addresses 0 through 255 inclusive). -/
def dl255 : Flip := { group := 1, d0 := 0, d1 := 0, d2 := 0, d3 := 0, d4 := 255 }

/-- Counterexample for C2: with `SPM_PAGESIZE = 128` the window `[0, 255]`
spans N = 2 flash pages, yet the streaming loop performs 3 page erases
(not 2): on crossing the boundary at address 256 it erases the page past
the window before noticing that the window has closed.  Commits number 2. -/
theorem flash_download_erase_count_cex :
    (ProcessDownload cfg0 dl255 m0).events.countP isErase = 3 ∧
    (ProcessDownload cfg0 dl255 m0).events.countP isCommit = 2 ∧
    255 / 128 - 0 / 128 + 1 = 2 ∧ ¬ (3 = 2) := by
  refine ⟨by decide, by decide, by decide, by decide⟩

/-- Claim C2 (amended): for a flash Download started from Idle whose
page-aligned, non-wrapping window `[start, end]` spans
`N = end / P - start / P + 1` flash pages, the streaming loop performs
exactly `N + 1` page erases and exactly `N` page commits: each crossing
of a page boundary erases the newly entered page and (except at the very
first boundary, `start` itself) commits the page just left, and the loop
additionally erases the first page past the window at the final boundary
crossing — the trace ends with that extra erase, the commit of the last
(possibly partial) window page, the read-while-write re-enable and the
final packet acknowledgement, after which the handler's state is
ManifestSync. -/
theorem flash_download_page_counts (P EP DP boot fuel : Nat)
    (fm em dm : Nat → Nat) (c : Flip) (m : Mach)
    (hP : 2 ≤ P) (hP2 : 2 ∣ P) (hEP : 0 < EP) (hd0 : c.d0 = 0)
    (hidle : m.dfuState = dfuIDLE)
    (hs : P ∣ addr16 c.d1 c.d2)
    (hse : addr16 c.d1 c.d2 ≤ addr16 c.d3 c.d4)
    (hB : P * (addr16 c.d3 c.d4 / P + 1) < 65536)
    (hfuel : P * (addr16 c.d3 c.d4 / P + 1) - addr16 c.d1 c.d2 + 2 ≤ fuel) :
    ProcessDownload ⟨P, EP, DP, boot, fuel, fm, em, dm⟩ c m =
      { m with dfuState := dfuMANIFEST_SYNC,
               events := m.events ++
                 (flashGo P EP (addr16 c.d1 c.d2) (addr16 c.d3 c.d4) fuel
                   (addr16 c.d1 c.d2) 0).1 } ∧
    (flashGo P EP (addr16 c.d1 c.d2) (addr16 c.d3 c.d4) fuel
        (addr16 c.d1 c.d2) 0).1.countP isErase =
      (addr16 c.d3 c.d4 / P - addr16 c.d1 c.d2 / P + 1) + 1 ∧
    (flashGo P EP (addr16 c.d1 c.d2) (addr16 c.d3 c.d4) fuel
        (addr16 c.d1 c.d2) 0).1.countP isCommit =
      addr16 c.d3 c.d4 / P - addr16 c.d1 c.d2 / P + 1 ∧
    (∃ t, (flashGo P EP (addr16 c.d1 c.d2) (addr16 c.d3 c.d4) fuel
        (addr16 c.d1 c.d2) 0).1 =
      t ++ [Ev.erase (P * (addr16 c.d3 c.d4 / P + 1)),
            Ev.commit (P * (addr16 c.d3 c.d4 / P + 1) - 2), Ev.rww,
            Ev.clearOut]) := by
  have hP0 : 0 < P := by omega
  have hdm := Nat.div_add_mod (addr16 c.d3 c.d4) P
  have hml : addr16 c.d3 c.d4 % P < P := Nat.mod_lt _ hP0
  have heB : addr16 c.d3 c.d4 < P * (addr16 c.d3 c.d4 / P + 1) := by
    rw [Nat.mul_succ]; omega
  have hsB : addr16 c.d1 c.d2 ≤ P * (addr16 c.d3 c.d4 / P + 1) := by omega
  have h2s : 2 ∣ addr16 c.d1 c.d2 := dvd_trans hP2 hs
  have key := flashGo_run P EP (addr16 c.d1 c.d2) (addr16 c.d3 c.d4)
    (P * (addr16 c.d3 c.d4 / P + 1)) hP hP2 hEP hs hse rfl hB fuel
    (addr16 c.d1 c.d2) 0 le_rfl hsB h2s (by rw [if_pos hEP]; omega)
  obtain ⟨k, hk⟩ := hs
  have hsP : addr16 c.d1 c.d2 / P = k := by
    rw [hk]; exact Nat.mul_div_cancel_left k hP0
  have hkle : k ≤ addr16 c.d3 c.d4 / P := by
    have h1 : addr16 c.d1 c.d2 / P ≤ addr16 c.d3 c.d4 / P :=
      Nat.div_le_div_right hse
    omega
  have hBk : P * (addr16 c.d3 c.d4 / P + 1) - addr16 c.d1 c.d2 =
      P * (addr16 c.d3 c.d4 / P + 1 - k) := by
    have h1 : P * (addr16 c.d3 c.d4 / P + 1 - k) + P * k =
        P * (addr16 c.d3 c.d4 / P + 1) := by
      rw [← Nat.mul_add]
      congr 1
      omega
    omega
  have hOut : (P * (addr16 c.d3 c.d4 / P + 1) - addr16 c.d1 c.d2) / P =
      addr16 c.d3 c.d4 / P + 1 - k := by
    rw [hBk]; exact Nat.mul_div_cancel_left _ hP0
  have hB2 : 2 ≤ P * (addr16 c.d3 c.d4 / P + 1) := by
    have h1 : P * 1 ≤ P * (addr16 c.d3 c.d4 / P + 1) :=
      Nat.mul_le_mul_left P (by omega)
    omega
  have hmod2 : (P * (addr16 c.d3 c.d4 / P + 1) + 65534) % 65536 =
      P * (addr16 c.d3 c.d4 / P + 1) - 2 := by omega
  refine ⟨?_, ?_, ?_, ?_⟩
  · simp [ProcessDownload, hd0, hidle, key.1]
  · rw [key.2.2.1, hOut, hsP]
    omega
  · rw [key.2.2.2.1, if_pos rfl, hOut, hsP]
    omega
  · obtain ⟨t, htl⟩ := key.2.2.2.2.1
    exact ⟨t, by rw [htl, hmod2]⟩

/-- Witness for C2: the amended count theorem applied to the concrete
window `[0, 255]` with page size 128 and endpoint size 32: three erases,
two commits, state ManifestSync. -/
theorem flash_download_page_counts_witness :
    (flashGo 128 32 0 255 600 0 0).1.countP isErase = (255 / 128 - 0 / 128 + 1) + 1 :=
  (flash_download_page_counts 128 32 256 4096 600 (fun _ => 255) (fun _ => 255)
    (fun _ => 255) dl255 m0 (by decide) (by decide) (by decide) (by decide)
    (by decide) (by decide) (by decide) (by decide) (by decide)).2.1

/-! ## Claim C5: when the flash Download loop actually terminates -/

/-- A flash Download command over the window bytes `00 00 / 00 10`
(addresses 0 through 16). -/
def dl16 : Flip := { group := 1, d0 := 0, d1 := 0, d2 := 0, d3 := 0, d4 := 16 }

/-- Counterexample for C5: for the window `[0, 16]` with page size 128 the
cursor passes the end address during the first packet, yet the loop keeps
consuming stream bytes into memory — words are filled at addresses 18
through 126, all past the end address — because the `curAddr > endAddr`
test is only evaluated at page-boundary crossings. -/
theorem flash_download_overrun_cex :
    Ev.fill 18 ∈ (ProcessDownload cfg0 dl16 m0).events ∧
    Ev.fill 126 ∈ (ProcessDownload cfg0 dl16 m0).events ∧
    (16 : Nat) < 18 := by
  refine ⟨by decide, by decide, by decide⟩

/-- Claim C5 (amended): the flash Download loop evaluates its end test
only at page-boundary crossings: once the cursor passes the end address
the loop continues to consume stream bytes into memory, filling every
even address up to (but excluding) the first page boundary
`B = P * (end / P + 1)` past the end.  The loop reaches ManifestSync only
with the cursor at a page boundary strictly past the end, and for a
page-aligned non-wrapping window it does terminate there: the state
becomes ManifestSync, the handler reports it, and the trace ends with the
final boundary's erase and commit followed by the acknowledgement of the
current packet. -/
theorem flash_download_end_test (P EP DP boot fuel : Nat)
    (fm em dm : Nat → Nat) (c : Flip) (m : Mach)
    (hP : 2 ≤ P) (hP2 : 2 ∣ P) (hEP : 0 < EP) (hd0 : c.d0 = 0)
    (hidle : m.dfuState = dfuIDLE)
    (hs : P ∣ addr16 c.d1 c.d2)
    (hse : addr16 c.d1 c.d2 ≤ addr16 c.d3 c.d4)
    (hB : P * (addr16 c.d3 c.d4 / P + 1) < 65536)
    (hfuel : P * (addr16 c.d3 c.d4 / P + 1) - addr16 c.d1 c.d2 + 2 ≤ fuel) :
    (∀ fuel' cur i,
      (flashGo P EP (addr16 c.d1 c.d2) (addr16 c.d3 c.d4) fuel' cur i).2.2 = true →
      addr16 c.d3 c.d4 <
        (flashGo P EP (addr16 c.d1 c.d2) (addr16 c.d3 c.d4) fuel' cur i).2.1 ∧
      (flashGo P EP (addr16 c.d1 c.d2) (addr16 c.d3 c.d4) fuel' cur i).2.1 % P = 0) ∧
    (flashGo P EP (addr16 c.d1 c.d2) (addr16 c.d3 c.d4) fuel
      (addr16 c.d1 c.d2) 0).2.2 = true ∧
    (flashGo P EP (addr16 c.d1 c.d2) (addr16 c.d3 c.d4) fuel
        (addr16 c.d1 c.d2) 0).2.1 = P * (addr16 c.d3 c.d4 / P + 1) ∧
    (ProcessDownload ⟨P, EP, DP, boot, fuel, fm, em, dm⟩ c m).dfuState =
      dfuMANIFEST_SYNC ∧
    (∃ t, (flashGo P EP (addr16 c.d1 c.d2) (addr16 c.d3 c.d4) fuel
        (addr16 c.d1 c.d2) 0).1 =
      t ++ [Ev.erase (P * (addr16 c.d3 c.d4 / P + 1)),
            Ev.commit (P * (addr16 c.d3 c.d4 / P + 1) - 2), Ev.rww,
            Ev.clearOut]) ∧
    (∀ a, addr16 c.d1 c.d2 ≤ a → a < P * (addr16 c.d3 c.d4 / P + 1) → 2 ∣ a →
      Ev.fill a ∈ (flashGo P EP (addr16 c.d1 c.d2) (addr16 c.d3 c.d4) fuel
        (addr16 c.d1 c.d2) 0).1) := by
  have hP0 : 0 < P := by omega
  have hdm := Nat.div_add_mod (addr16 c.d3 c.d4) P
  have hml : addr16 c.d3 c.d4 % P < P := Nat.mod_lt _ hP0
  have heB : addr16 c.d3 c.d4 < P * (addr16 c.d3 c.d4 / P + 1) := by
    rw [Nat.mul_succ]; omega
  have hsB : addr16 c.d1 c.d2 ≤ P * (addr16 c.d3 c.d4 / P + 1) := by omega
  have h2s : 2 ∣ addr16 c.d1 c.d2 := dvd_trans hP2 hs
  have key := flashGo_run P EP (addr16 c.d1 c.d2) (addr16 c.d3 c.d4)
    (P * (addr16 c.d3 c.d4 / P + 1)) hP hP2 hEP hs hse rfl hB fuel
    (addr16 c.d1 c.d2) 0 le_rfl hsB h2s (by rw [if_pos hEP]; omega)
  have hB2 : 2 ≤ P * (addr16 c.d3 c.d4 / P + 1) := by
    have h1 : P * 1 ≤ P * (addr16 c.d3 c.d4 / P + 1) :=
      Nat.mul_le_mul_left P (Nat.le_add_left 1 _)
    omega
  have hmod2 : (P * (addr16 c.d3 c.d4 / P + 1) + 65534) % 65536 =
      P * (addr16 c.d3 c.d4 / P + 1) - 2 := by omega
  refine ⟨flashGo_only_past_end P EP _ _, key.1, key.2.1, ?_, ?_, key.2.2.2.2.2⟩
  · simp [ProcessDownload, hd0, hidle, key.1]
  · obtain ⟨t, htl⟩ := key.2.2.2.2.1
    exact ⟨t, by rw [htl, hmod2]⟩

/-- Witness for C5: in the concrete window `[0, 16]` with page size 128,
the loop fills address 18 (past the end address 16) and terminates at the
boundary 128. -/
theorem flash_download_end_test_witness :
    Ev.fill 18 ∈ (flashGo 128 32 0 16 600 0 0).1 ∧
    (flashGo 128 32 0 16 600 0 0).2.1 = 128 :=
  ⟨(flash_download_end_test 128 32 256 4096 600 (fun _ => 255) (fun _ => 255)
      (fun _ => 255) dl16 m0 (by decide) (by decide) (by decide) (by decide)
      (by decide) (by decide) (by decide) (by decide) (by decide)).2.2.2.2.2
      18 (by decide) (by decide) (by decide),
   by
    have h := (flash_download_end_test 128 32 256 4096 600 (fun _ => 255)
      (fun _ => 255) (fun _ => 255) dl16 m0 (by decide) (by decide) (by decide)
      (by decide) (by decide) (by decide) (by decide) (by decide)
      (by decide)).2.2.1
    simpa using h⟩

/-! ## Claim C8: which commands complete during the DNLOAD request -/

/-- A Read command (group 5): request bootloader version. -/
def readCmd : Flip := { group := 5, d0 := 0, d1 := 0, d2 := 0, d3 := 0, d4 := 0 }

/-- A Select command (group 6): set the 64KB bank to 5. -/
def selCmd : Flip := { group := 6, d0 := 3, d1 := 0, d2 := 5, d3 := 0, d4 := 0 }

/-- Counterexample for C8: a Read command carried in a non-empty Dnload
request is *not* completed during that request: the dispatch test leaves
it out, the handler merely stores it and sets `waitForSecondRequest`, and
no identity byte is sent (the trace holds only the control-transfer
acknowledgements). -/
theorem read_not_synchronous_cex :
    immediateCmd readCmd = false ∧
    EVENT_USB_Device_UnhandledControlRequest cfg0 1 6 readCmd m0 =
      { m0 with cmd := readCmd, waitForSecondRequest := true,
                events := [Ev.clearSetup, Ev.clearOut, Ev.clearStatusStage] } := by
  refine ⟨rfl, by decide⟩

/-- Claim C8 (amended): of the non-streaming command groups, Exec and
Select complete synchronously during the handling of the Dnload request
itself (their handler is invoked via `ProcessFlipCommand` before the
transfer finishes), but Read does not: the Dnload handler only records a
Read command and sets `waitForSecondRequest`, and the command is
dispatched during the *next* DFU_UPLOAD control request. -/
theorem exec_select_sync_read_deferred (cfg : Cfg) (wLen : Nat) (inc : Flip)
    (m : Mach) (hw : wLen ≠ 0) :
    ((readFlip m.cmd inc wLen).group = 4 ∨ (readFlip m.cmd inc wLen).group = 6 →
      EVENT_USB_Device_UnhandledControlRequest cfg 1 wLen inc m =
        (let p := ProcessFlipCommand cfg
          { m with cmd := readFlip m.cmd inc wLen, waitForSecondRequest := false,
                   events := m.events ++ [Ev.clearSetup, Ev.clearOut] };
         { p with events := p.events ++ [Ev.clearStatusStage] })) ∧
    ((readFlip m.cmd inc wLen).group = 5 →
      EVENT_USB_Device_UnhandledControlRequest cfg 1 wLen inc m =
        { m with cmd := readFlip m.cmd inc wLen, waitForSecondRequest := true,
                 events := m.events ++
                   [Ev.clearSetup, Ev.clearOut, Ev.clearStatusStage] }) ∧
    (∀ m' : Mach, m'.cmd.group = 5 →
      EVENT_USB_Device_UnhandledControlRequest cfg 2 wLen inc m' =
        (let p := getstatusCase (ProcessFlipCommand cfg
          { m' with events := m'.events ++ [Ev.clearSetup] });
         { p with events := p.events ++ [Ev.clearStatusStage] })) := by
  refine ⟨?_, ?_, ?_⟩
  · rintro (h | h) <;>
      simp [EVENT_USB_Device_UnhandledControlRequest, dnloadCase, hw,
        immediateCmd, h]
  · intro h
    simp [EVENT_USB_Device_UnhandledControlRequest, dnloadCase, hw,
      immediateCmd, h]
  · intro m' h5
    simp [EVENT_USB_Device_UnhandledControlRequest, uploadCase, blankCheckCmd, h5]

/-- Witness for C8: a Select command in a Dnload request takes effect
immediately — the bank register is 5 when the request completes. -/
theorem exec_select_sync_read_deferred_witness :
    EVENT_USB_Device_UnhandledControlRequest cfg0 1 6 selCmd m0 =
      { m0 with cmd := selCmd, bank := 5,
                events := [Ev.clearSetup, Ev.clearOut, Ev.clearStatusStage] } :=
  ((exec_select_sync_read_deferred cfg0 6 selCmd m0 (by decide)).1
    (Or.inr (by decide))).trans (by decide)

/-! ## Claim C10: DFU_UPLOAD falls through into DFU_GETSTATUS -/

/-- Claim C10: for a DFU_UPLOAD request whose remembered command is not a
blank check, the handler dispatches the remembered command and then — by
the missing `break` in the source `switch` — executes the entire
GETSTATUS behaviour of the same invocation: it applies the poll
transition `UpdateState` and writes the 6-byte status response (status,
three zero poll-timeout bytes, the post-transition state, and a zero
string index) to the host. -/
theorem upload_falls_through_to_getstatus (cfg : Cfg) (wLen : Nat)
    (inc : Flip) (m : Mach) (h : blankCheckCmd m.cmd = false) :
    EVENT_USB_Device_UnhandledControlRequest cfg 2 wLen inc m =
      (let p := ProcessFlipCommand cfg
        { m with events := m.events ++ [Ev.clearSetup] };
       { p with dfuState := UpdateState p.dfuState,
                events := p.events ++
                  [Ev.outByte p.dfuStatus, Ev.outByte 0, Ev.outByte 0,
                   Ev.outByte 0, Ev.outByte (UpdateState p.dfuState),
                   Ev.outByte 0, Ev.clearIn, Ev.clearStatusStage] }) := by
  simp [EVENT_USB_Device_UnhandledControlRequest, uploadCase, h, getstatusCase]

/-- Witness for C10: an UPLOAD arriving with a remembered Read command
dispatches it (the version byte 32 is sent) and then emits the full
6-byte status response: status Ok, three zeros, state Idle, zero. -/
theorem upload_falls_through_to_getstatus_witness :
    EVENT_USB_Device_UnhandledControlRequest cfg0 2 0 flip0
        { m0 with cmd := readCmd } =
      { m0 with cmd := readCmd,
                events := [Ev.clearSetup, Ev.outByte 32, Ev.clearIn,
                  Ev.outByte 0, Ev.outByte 0, Ev.outByte 0, Ev.outByte 0,
                  Ev.outByte 2, Ev.outByte 0, Ev.clearIn,
                  Ev.clearStatusStage] } :=
  (upload_falls_through_to_getstatus cfg0 0 flip0 { m0 with cmd := readCmd }
    (by decide)).trans (by decide)
